import Mathlib

/-!
Verification development for the midi2text repository: a shallow embedding of
the two codec engines, `midi2notes.py` (the stream decoder) and `notes2midi.py`
(the stream encoder), together with theorems settling the specification claims.

Modelling conventions:
  - Wall-clock timestamps and durations (Python floats, milliseconds) are
    embedded as rationals; the timestamp taken by a state transition is passed
    in as an explicit `now` argument.
  - Python `int(x)` (truncation toward zero) is embedded as `pyInt`.
  - Python dictionaries (insertion-ordered maps) are embedded as association
    lists with in-place update on an existing key and append on a new key,
    mirroring CPython semantics.
  - Python `str.strip` / `str.split` / `str.upper` are embedded as the
    character-list functions `stripChars`, `pySplit`, and a `Char.toUpper` map.
  - Fallible constructors and parsers return `Except String`; the error text is
    abbreviated (no claim depends on the message wording).
  - Wall-clock sleeps have no effect on emitted bytes or converter state, so
    they are dropped; for the `timed` policy the bytes printed mid-line and the
    bytes returned from `convert_line` are concatenated into one output stream
    in emission order, which is exactly the sequence the caller prints.
    For the `realtime` policy the due timestamps handed to the background
    scheduler are abstracted away: only the queued pitches are tracked.
-/

/-- Python `int(x)` on a rational: truncation toward zero
(`Int.tdiv` is the rounding-toward-zero integer division). -/
def pyInt (q : ℚ) : Int :=
  q.num.tdiv q.den

/-- Whether an `Except` computation succeeded. -/
def exceptOk {ε α : Type} : Except ε α → Bool
  | .ok _ => true
  | .error _ => false

/-- Python `str.strip`: drop leading and trailing whitespace. -/
def stripChars (cs : List Char) : List Char :=
  ((cs.dropWhile Char.isWhitespace).reverse.dropWhile Char.isWhitespace).reverse

/-- Helper for `pySplit`: accumulate the current (reversed) token. -/
def splitWsAux : List Char → List Char → List String
  | [], acc => if acc.isEmpty then [] else [String.mk acc.reverse]
  | c :: cs, acc =>
    if c.isWhitespace then
      if acc.isEmpty then splitWsAux cs [] else String.mk acc.reverse :: splitWsAux cs []
    else
      splitWsAux cs (c :: acc)

/-- Python `str.split()` (no argument): split on runs of whitespace,
never producing empty tokens. -/
def pySplit (s : String) : List String :=
  splitWsAux s.data []

namespace MidiDict

/-- Python `k in d` on an insertion-ordered association list. -/
def dmem {α : Type} (k : Nat) (l : List (Nat × α)) : Bool :=
  l.any (fun p => p.1 == k)

/-- Python `d[k] = v`: replace the value in place when the key is present,
append a fresh entry otherwise (CPython dict semantics). -/
def dinsert {α : Type} (k : Nat) (v : α) (l : List (Nat × α)) : List (Nat × α) :=
  if l.any (fun p => p.1 == k) then
    l.map (fun p => if p.1 == k then (k, v) else p)
  else
    l ++ [(k, v)]

/-- Python `del d[k]`. -/
def derase {α : Type} (k : Nat) (l : List (Nat × α)) : List (Nat × α) :=
  l.filter (fun p => p.1 != k)

/-- Python `d[k]` (as an `Option`; callers rely on the key being present). -/
def dlookup {α : Type} (k : Nat) (l : List (Nat × α)) : Option α :=
  (l.find? (fun p => p.1 == k)).map Prod.snd

end MidiDict

namespace Midi2Notes

/-- `TICK_DURATION_MS = 83` from midi2notes.py (approximate tick at 120 BPM). -/
def TICK_DURATION_MS : ℚ := 83

/-- State of `MIDIToNotesConverter` (midi2notes.py): the constructor arguments
plus the mutable decoding state. -/
structure MIDIToNotesConverter where
  midi_device : String
  channel_filter : Int
  active_notes : List (Nat × String)
  note_start_time : List (Nat × ℚ)
  last_note_end_time : ℚ
  any_notes_played : Bool

/-- `MIDIToNotesConverter.__init__`: validates the channel filter and starts
with empty decoding state. A `ValueError` is embedded as `Except.error`. -/
def init (midi_device : String) (channel_filter : Int) :
    Except String MIDIToNotesConverter :=
  if ¬(0 ≤ channel_filter ∧ channel_filter ≤ 16) then
    .error "Channel filter must be between 0 (all) and 16"
  else
    .ok { midi_device := midi_device, channel_filter := channel_filter,
          active_notes := [], note_start_time := [],
          last_note_end_time := 0, any_notes_played := false }

/-- A sharpened note letter, such as `C#`. -/
def sharped (letter : Char) : String :=
  String.mk [letter, '#']

/-- The `notes` table used by `midi_to_note`: the twelve semitone names in
the sharp-preferring spelling of the source. -/
def NOTES : List String :=
  ["C", sharped 'C', "D", sharped 'D', "E",
   "F", sharped 'F', "G", sharped 'G', "A", sharped 'A', "B"]

/-- `MIDIToNotesConverter.midi_to_note`: pitch number to name+octave text. -/
def midi_to_note (midi_num : Nat) : String :=
  let octave : Int := (midi_num : Int) / 12 - 1
  let note_index := midi_num % 12
  String.append (NOTES.getD note_index "") (toString octave)

/-- The rest-detection block at the top of `output_note_with_duration`:
emits a line of minus signs when the gap since the previous note exceeds
half a tick. -/
def rest_output (st : MIDIToNotesConverter) (start_time : ℚ) : List String :=
  if st.any_notes_played = true ∧ st.last_note_end_time > 0 then
    let silence_duration := start_time - st.last_note_end_time
    if silence_duration > TICK_DURATION_MS * (1 / 2) then
      let silence_ticks := max 1 (min (pyInt (silence_duration / TICK_DURATION_MS)) 24)
      [String.mk (List.replicate silence_ticks.toNat '-')]
    else []
  else []

/-- The duration quantization in `output_note_with_duration`:
`int(duration_ms / TICK_DURATION_MS)` clamped to `[1, 24]`. -/
def note_ticks (start_time end_time : ℚ) : Int :=
  max 1 (min (pyInt ((end_time - start_time) / TICK_DURATION_MS)) 24)

/-- `MIDIToNotesConverter.output_note_with_duration`: returns the updated
state and the printed lines (optional rest line, then the note line). -/
def output_note_with_duration (st : MIDIToNotesConverter) (note : String)
    (start_time end_time : ℚ) : MIDIToNotesConverter × List String :=
  ({ st with last_note_end_time := end_time, any_notes_played := true },
   rest_output st start_time ++
     [note ++ String.mk (List.replicate (note_ticks start_time end_time).toNat '.')])

/-- The note-off handling shared by the two dispatch branches of
`process_midi_message` (the source repeats this block verbatim in both). -/
def handle_note_off (st : MIDIToNotesConverter) (data1 : Nat) (now : ℚ) :
    MIDIToNotesConverter × List String :=
  if MidiDict.dmem data1 st.active_notes then
    let note := (MidiDict.dlookup data1 st.active_notes).getD ""
    let start_time := (MidiDict.dlookup data1 st.note_start_time).getD 0
    let r := output_note_with_duration st note start_time now
    ({ r.1 with active_notes := MidiDict.derase data1 r.1.active_notes,
                note_start_time := MidiDict.derase data1 r.1.note_start_time },
     r.2)
  else (st, [])

/-- `MIDIToNotesConverter.process_midi_message`: channel filtering and
dispatch on the message type, given the wall-clock timestamp `now`. -/
def process_midi_message (st : MIDIToNotesConverter)
    (status_byte data1 data2 : Nat) (now : ℚ) :
    MIDIToNotesConverter × List String :=
  let msg_type := (status_byte &&& 0xF0) >>> 4
  let channel : Int := ((status_byte &&& 0x0F : Nat) : Int) + 1
  if st.channel_filter ≠ 0 ∧ channel ≠ st.channel_filter then
    (st, [])
  else if msg_type = 9 then
    if 0 < data2 then
      let note := midi_to_note data1
      ({ st with active_notes := MidiDict.dinsert data1 note st.active_notes,
                 note_start_time := MidiDict.dinsert data1 now st.note_start_time },
       [])
    else
      handle_note_off st data1 now
  else if msg_type = 8 then
    handle_note_off st data1 now
  else (st, [])

/-- One decoded 3-byte message together with its arrival timestamp. -/
structure RawMsg where
  status_byte : Nat
  data1 : Nat
  data2 : Nat
  now : ℚ

/-- Process a sequence of decoded messages from a given state, accumulating
all printed lines in order. -/
def runDecoder (st : MIDIToNotesConverter) (msgs : List RawMsg) :
    MIDIToNotesConverter × List String :=
  msgs.foldl (fun acc m =>
    ((process_midi_message acc.1 m.status_byte m.data1 m.data2 m.now).1,
     acc.2 ++ (process_midi_message acc.1 m.status_byte m.data1 m.data2 m.now).2))
    (st, [])

/-- Observer: a rest line (nonempty, all minus signs). -/
def isRestLine (s : String) : Bool :=
  !s.data.isEmpty && s.data.all (fun c => c == '-')

/-- Observer: whether any emitted line is a rest line. -/
def hasRestLine (lines : List String) : Bool :=
  lines.any isRestLine

end Midi2Notes

namespace Notes2Midi

/-- `NOTE_MAP` from notes2midi.py (keys as produced by the uppercasing parse). -/
def NOTE_MAP : List (String × Nat) :=
  [("C", 0), ("C#", 1), ("DB", 1), ("D", 2), ("D#", 3), ("EB", 3),
   ("E", 4), ("F", 5), ("F#", 6), ("GB", 6), ("G", 7), ("G#", 8),
   ("AB", 8), ("A", 9), ("A#", 10), ("BB", 10), ("B", 11)]

/-- The result of `note_to_midi`: either a rest with a minus count, or a
pitch with a dot count. -/
inductive NoteInfo where
  | rest (count : Nat)
  | note (midi_note : Nat) (dot_count : Nat)
deriving DecidableEq

/-- The regex `^([A-G][#B]?)([0-9])(\.*)$` applied to the uppercased token:
returns (name group, octave digit, dot count). Greedy matching without
backtracking is equivalent here because the optional second name character
can never also satisfy the octave-digit position. -/
def parse_note_token : List Char → Option (String × Nat × Nat)
  | [] => none
  | c :: rest =>
    if 'A' ≤ c ∧ c ≤ 'G' then
      match rest with
      | [] => none
      | d :: rest2 =>
        if d = '#' ∨ d = 'B' then
          match rest2 with
          | [] => none
          | o :: dots =>
            if o.isDigit ∧ dots.all (fun x => x == '.') then
              some (String.mk [c, d], o.toNat - 48, dots.length)
            else none
        else
          if d.isDigit ∧ rest2.all (fun x => x == '.') then
            some (String.mk [c], d.toNat - 48, rest2.length)
          else none
    else none

/-- `TimedMIDIConverter.note_to_midi`: strip, rest match `^-+$` first, else
note match and table lookup, validating the 0..127 pitch range (the lower
bound is automatic over `Nat`). `ValueError` is embedded as `Except.error`. -/
def note_to_midi (note_input : String) : Except String NoteInfo :=
  let cs := stripChars note_input.data
  if !cs.isEmpty && cs.all (fun c => c == '-') then
    .ok (.rest cs.length)
  else
    match parse_note_token (cs.map Char.toUpper) with
    | none => .error "Invalid note format"
    | some (note_name, octave, dots_len) =>
      let dot_count := if dots_len = 0 then 1 else dots_len
      match (NOTE_MAP.find? (fun p => p.1 == note_name)).map Prod.snd with
      | none => .error "Invalid note name"
      | some base_note =>
        let midi_note := base_note + (octave + 1) * 12
        if midi_note ≤ 127 then .ok (.note midi_note dot_count)
        else .error "Note is out of MIDI range"

/-- State of `TimedMIDIConverter` (notes2midi.py). `channel` is stored
0-based as in the source; the queue keeps only the scheduled pitches (due
timestamps are wall-clock data with no effect on emitted bytes). -/
structure TimedMIDIConverter where
  channel : Nat
  velocity : Nat
  note_off : String
  bpm : Int
  microsecs_per_quarter : Int
  microsecs_per_tick : Int
  processed_notes : List Nat
  note_off_queue : List Nat

/-- `MICROSECS_PER_MIN` from notes2midi.py. -/
def MICROSECS_PER_MIN : Int := 60000000

/-- `TimedMIDIConverter.__init__`: the four validations in source order,
then the derived timing constants (`PPQN = 6`). -/
def init (channel velocity : Int) (note_off : String) (bpm : Int) :
    Except String TimedMIDIConverter :=
  if ¬(1 ≤ channel ∧ channel ≤ 16) then
    .error "MIDI channel must be between 1 and 16"
  else if ¬(0 ≤ velocity ∧ velocity ≤ 127) then
    .error "Velocity must be between 0 and 127"
  else if note_off ∉ ["on", "off", "auto", "timed", "realtime"] then
    .error "Invalid note-off parameter"
  else if ¬(30 ≤ bpm ∧ bpm ≤ 300) then
    .error "BPM must be between 30 and 300"
  else
    .ok { channel := (channel - 1).toNat, velocity := velocity.toNat,
          note_off := note_off, bpm := bpm,
          microsecs_per_quarter := MICROSECS_PER_MIN / bpm,
          microsecs_per_tick := MICROSECS_PER_MIN / bpm / 6,
          processed_notes := [], note_off_queue := [] }

/-- One uppercase hexadecimal digit (`0`–`9`, then `A`–`F`). -/
def hexDigit (n : Nat) : Char :=
  if n < 10 then Char.ofNat (48 + n) else Char.ofNat (55 + n)

/-- Python `"%02X" % n` for `n < 256` (every emitted byte is below 256). -/
def hex2 (n : Nat) : String :=
  String.mk [hexDigit (n / 16 % 16), hexDigit (n % 16)]

/-- `TimedMIDIConverter.generate_note_on`. -/
def generate_note_on (c : TimedMIDIConverter) (midi_note : Nat) : String :=
  hex2 (0x90 + c.channel) ++ " " ++ hex2 midi_note ++ " " ++ hex2 c.velocity ++ " "

/-- `TimedMIDIConverter.generate_note_off`. -/
def generate_note_off (c : TimedMIDIConverter) (midi_note : Nat) : String :=
  hex2 (0x80 + c.channel) ++ " " ++ hex2 midi_note ++ " 00 "

/-- The per-pitch policy dispatch inside `convert_line`. The tick count only
feeds sleeps and scheduler due times, so it does not influence the returned
bytes or state beyond the queue/processed list. -/
def handle_note (c : TimedMIDIConverter) (midi_note ticks : Nat) :
    TimedMIDIConverter × String :=
  if c.note_off = "realtime" then
    ({ c with note_off_queue := c.note_off_queue ++ [midi_note] },
     generate_note_on c midi_note)
  else if c.note_off = "timed" then
    (c, generate_note_on c midi_note ++ generate_note_off c midi_note)
  else if c.note_off = "auto" then
    (c, generate_note_on c midi_note ++ generate_note_off c midi_note)
  else
    ({ c with processed_notes := c.processed_notes ++ [midi_note] },
     generate_note_on c midi_note)

/-- The token loop of `convert_line`: empty tokens are skipped, a
`ValueError` from `note_to_midi` is caught and the token skipped, rests only
sleep, and pitches go through the policy dispatch. -/
def convert_tokens (c : TimedMIDIConverter) :
    List String → TimedMIDIConverter × String
  | [] => (c, "")
  | t :: ts =>
    if t = "" then convert_tokens c ts
    else
      match note_to_midi t with
      | .error _ => convert_tokens c ts
      | .ok (.rest _) => convert_tokens c ts
      | .ok (.note midi_note ticks) =>
        let s := handle_note c midi_note ticks
        let r := convert_tokens s.1 ts
        (r.1, s.2 ++ r.2)

/-- `TimedMIDIConverter.convert_line`: strip the line, return nothing when
empty, otherwise tokenize with `str.split()` and run the token loop. -/
def convert_line (c : TimedMIDIConverter) (line : String) :
    TimedMIDIConverter × String :=
  let stripped := String.mk (stripChars line.data)
  if stripped = "" then (c, "")
  else convert_tokens c (pySplit stripped)

/-- `TimedMIDIConverter.finalize`: under the `on` policy, one note-off per
entry of `processed_notes`, in order; otherwise no bytes. -/
def finalize (c : TimedMIDIConverter) : String :=
  if c.note_off = "on" then
    c.processed_notes.foldl (fun acc n => acc ++ generate_note_off c n) ""
  else ""

/-- Observer: the pitches of the valid note tokens of a line, in order. -/
def notePitches (tokens : List String) : List Nat :=
  tokens.filterMap (fun t =>
    match note_to_midi t with
    | .ok (.note m _) => some m
    | _ => none)

/-- Observer: whether a token parses (rest or in-range note). -/
def token_ok (t : String) : Bool :=
  exceptOk (note_to_midi t)

end Notes2Midi

/-! Concrete instances used by witnesses and counterexamples. -/

/-- A freshly constructed decoder (stdin source, channel filter 0). -/
def conv0 : Midi2Notes.MIDIToNotesConverter :=
  { midi_device := "-", channel_filter := 0, active_notes := [],
    note_start_time := [], last_note_end_time := 0, any_notes_played := false }

/-- A decoder state with one active note: pitch 60 started at time 5. -/
def conv_active : Midi2Notes.MIDIToNotesConverter :=
  { conv0 with active_notes := [(60, "C4")], note_start_time := [(60, 5)] }

/-- A freshly constructed decoder with channel filter 1. -/
def conv_f1 : Midi2Notes.MIDIToNotesConverter :=
  { conv0 with channel_filter := 1 }

/-- The encoder constructed by `init 1 64 "auto" 120`. -/
def enc_auto : Notes2Midi.TimedMIDIConverter :=
  { channel := 0, velocity := 64, note_off := "auto", bpm := 120,
    microsecs_per_quarter := 500000, microsecs_per_tick := 83333,
    processed_notes := [], note_off_queue := [] }

/-- The encoder constructed by `init 1 64 "on" 120`. -/
def enc_on : Notes2Midi.TimedMIDIConverter :=
  { enc_auto with note_off := "on" }

/-- The encoder constructed by `init 1 64 "off" 120`. -/
def enc_off : Notes2Midi.TimedMIDIConverter :=
  { enc_auto with note_off := "off" }

/-- Two note-on messages for the same pitch, 10 ms apart. -/
def retriggerMsgs : List Midi2Notes.RawMsg :=
  [⟨0x90, 60, 64, 10⟩, ⟨0x90, 60, 64, 20⟩]

/-! Helper lemmas. -/

theorem pyInt_eq_floor (q : ℚ) (h : 0 ≤ q) : pyInt q = ⌊q⌋ := by
  rw [Rat.floor_def, pyInt,
    Int.tdiv_eq_ediv (Rat.num_nonneg.2 h) (Int.natCast_nonneg q.den)]

theorem map_fst_overwrite {α : Type} (k : Nat) (v : α) (l : List (Nat × α)) :
    (l.map (fun p => if p.1 == k then (k, v) else p)).map Prod.fst =
      l.map Prod.fst := by
  induction l with
  | nil => rfl
  | cons p ps ih =>
    simp only [List.map_cons, ih, List.cons.injEq, and_true]
    by_cases h : p.1 = k <;> simp [h]

theorem dinsert_keys_of_mem {α : Type} (k : Nat) (v : α) (l : List (Nat × α))
    (h : MidiDict.dmem k l = true) :
    (MidiDict.dinsert k v l).map Prod.fst = l.map Prod.fst := by
  rw [MidiDict.dmem] at h
  rw [MidiDict.dinsert, if_pos h, map_fst_overwrite]

theorem dinsert_keys_nodup {α : Type} (k : Nat) (v : α) (l : List (Nat × α))
    (h : (l.map Prod.fst).Nodup) :
    ((MidiDict.dinsert k v l).map Prod.fst).Nodup := by
  rw [MidiDict.dinsert]
  by_cases hm : l.any (fun p => p.1 == k) = true
  · rw [if_pos hm, map_fst_overwrite]; exact h
  · rw [if_neg hm]
    have hk : k ∉ l.map Prod.fst := by
      intro hk
      rcases List.mem_map.1 hk with ⟨p, hp, hpk⟩
      exact hm (List.any_eq_true.2 ⟨p, hp, by simp [hpk]⟩)
    rw [List.map_append, List.nodup_append]
    refine ⟨h, by simp, ?_⟩
    intro a ha hb
    simp only [List.map_cons, List.map_nil, List.mem_singleton] at hb
    subst hb
    exact hk ha

theorem derase_keys_nodup {α : Type} (k : Nat) (l : List (Nat × α))
    (h : (l.map Prod.fst).Nodup) :
    ((MidiDict.derase k l).map Prod.fst).Nodup := by
  rw [MidiDict.derase]
  exact List.Nodup.sublist ((List.filter_sublist l).map Prod.fst) h

theorem find?_overwrite {α : Type} (k : Nat) (v : α) :
    ∀ l : List (Nat × α), l.any (fun p => p.1 == k) = true →
      (l.map (fun p => if p.1 == k then (k, v) else p)).find?
        (fun p => p.1 == k) = some (k, v)
  | [], h => by simp at h
  | p :: ps, h => by
    by_cases hp : p.1 = k
    · have hhead : (if p.1 == k then (k, v) else p) = (k, v) := by simp [hp]
      rw [List.map_cons, hhead, List.find?_cons_of_pos _ (by simp)]
    · have hps : ps.any (fun p => p.1 == k) = true := by
        simpa [hp] using h
      have hhead : (if p.1 == k then (k, v) else p) = p := by simp [hp]
      rw [List.map_cons, hhead, List.find?_cons_of_neg _ (by simpa using hp)]
      exact find?_overwrite k v ps hps

theorem find?_append_single {α : Type} (k : Nat) (v : α) :
    ∀ l : List (Nat × α), l.any (fun p => p.1 == k) = false →
      (l ++ [(k, v)]).find? (fun p => p.1 == k) = some (k, v)
  | [], _ => by simp
  | p :: ps, h => by
    rw [List.any_cons, Bool.or_eq_false_iff] at h
    rw [List.cons_append, List.find?_cons_of_neg _ (by simp [h.1])]
    exact find?_append_single k v ps h.2

theorem dlookup_dinsert {α : Type} (k : Nat) (v : α) (l : List (Nat × α)) :
    MidiDict.dlookup k (MidiDict.dinsert k v l) = some v := by
  rw [MidiDict.dlookup, MidiDict.dinsert]
  by_cases hm : l.any (fun p => p.1 == k) = true
  · rw [if_pos hm, find?_overwrite k v l hm]; rfl
  · have hm' : l.any (fun p => p.1 == k) = false := by
      cases hb : l.any (fun p => p.1 == k)
      · rfl
      · exact absurd hb hm
    rw [if_neg hm, find?_append_single k v l hm']; rfl

theorem note_ticks_eq (s e : ℚ) (t : Nat) (h1 : 1 ≤ t) (h2 : t ≤ 24)
    (h3 : (t : ℚ) * Midi2Notes.TICK_DURATION_MS ≤ e - s)
    (h4 : e - s < ((t : ℚ) + 1) * Midi2Notes.TICK_DURATION_MS) :
    Midi2Notes.note_ticks s e = (t : ℤ) := by
  have hpos : (0 : ℚ) < Midi2Notes.TICK_DURATION_MS := by
    norm_num [Midi2Notes.TICK_DURATION_MS]
  have ht0 : (0 : ℚ) ≤ (t : ℚ) * Midi2Notes.TICK_DURATION_MS := by positivity
  have hq0 : (0 : ℚ) ≤ (e - s) / Midi2Notes.TICK_DURATION_MS :=
    div_nonneg (le_trans ht0 h3) hpos.le
  have hfl : ⌊(e - s) / Midi2Notes.TICK_DURATION_MS⌋ = (t : ℤ) := by
    rw [Int.floor_eq_iff]
    constructor
    · rw [le_div_iff₀ hpos]
      push_cast
      exact h3
    · rw [div_lt_iff₀ hpos]
      push_cast
      linarith
  rw [Midi2Notes.note_ticks, pyInt_eq_floor _ hq0, hfl]
  have hz1 : (1 : ℤ) ≤ (t : ℤ) := by exact_mod_cast h1
  have hz2 : (t : ℤ) ≤ 24 := by exact_mod_cast h2
  omega

theorem note_ticks_pos (s e : ℚ) : 1 ≤ (Midi2Notes.note_ticks s e).toNat := by
  have h : (1 : ℤ) ≤ Midi2Notes.note_ticks s e := le_max_left _ _
  omega

theorem isRestLine_note_line (note : String) (s e : ℚ) :
    Midi2Notes.isRestLine
      (note ++ String.mk (List.replicate (Midi2Notes.note_ticks s e).toNat '.')) =
      false := by
  obtain ⟨n, hn⟩ : ∃ n, (Midi2Notes.note_ticks s e).toNat = n + 1 :=
    ⟨(Midi2Notes.note_ticks s e).toNat - 1, by have := note_ticks_pos s e; omega⟩
  rw [Midi2Notes.isRestLine, hn, String.data_append]
  simp [List.replicate_succ]

theorem hasRestLine_output (st : Midi2Notes.MIDIToNotesConverter) (note : String)
    (s e : ℚ) :
    Midi2Notes.hasRestLine (Midi2Notes.output_note_with_duration st note s e).2 =
      Midi2Notes.hasRestLine (Midi2Notes.rest_output st s) := by
  rw [Midi2Notes.output_note_with_duration, Midi2Notes.hasRestLine,
    Midi2Notes.hasRestLine, List.any_append]
  simp [isRestLine_note_line]

theorem handle_note_off_nodup (st : Midi2Notes.MIDIToNotesConverter)
    (data1 : Nat) (now : ℚ)
    (h : (st.active_notes.map Prod.fst).Nodup) :
    (((Midi2Notes.handle_note_off st data1 now).1).active_notes.map Prod.fst).Nodup := by
  rw [Midi2Notes.handle_note_off]
  by_cases hm : MidiDict.dmem data1 st.active_notes = true
  · rw [if_pos hm]
    exact derase_keys_nodup _ _ h
  · rw [if_neg hm]
    exact h

theorem process_preserves_nodup (st : Midi2Notes.MIDIToNotesConverter)
    (status_byte data1 data2 : Nat) (now : ℚ)
    (h : (st.active_notes.map Prod.fst).Nodup) :
    (((Midi2Notes.process_midi_message st status_byte data1 data2 now).1).active_notes.map
      Prod.fst).Nodup := by
  rw [Midi2Notes.process_midi_message]
  by_cases h1 : st.channel_filter ≠ 0 ∧
      ((status_byte &&& 0x0F : Nat) : Int) + 1 ≠ st.channel_filter
  · rw [if_pos h1]; exact h
  · rw [if_neg h1]
    by_cases h2 : (status_byte &&& 0xF0) >>> 4 = 9
    · rw [if_pos h2]
      by_cases h3 : 0 < data2
      · rw [if_pos h3]
        exact dinsert_keys_nodup _ _ _ h
      · rw [if_neg h3]
        exact handle_note_off_nodup st data1 now h
    · rw [if_neg h2]
      by_cases h4 : (status_byte &&& 0xF0) >>> 4 = 8
      · rw [if_pos h4]
        exact handle_note_off_nodup st data1 now h
      · rw [if_neg h4]
        exact h

theorem runDecoder_foldl_nodup (msgs : List Midi2Notes.RawMsg) :
    ∀ acc : Midi2Notes.MIDIToNotesConverter × List String,
      (acc.1.active_notes.map Prod.fst).Nodup →
      ((msgs.foldl (fun acc m =>
          ((Midi2Notes.process_midi_message acc.1 m.status_byte m.data1 m.data2 m.now).1,
           acc.2 ++ (Midi2Notes.process_midi_message acc.1 m.status_byte m.data1 m.data2
             m.now).2)) acc).1.active_notes.map Prod.fst).Nodup := by
  induction msgs with
  | nil => intro acc h; exact h
  | cons m ms ih =>
    intro acc h
    exact ih _ (process_preserves_nodup acc.1 m.status_byte m.data1 m.data2 m.now h)

theorem runDecoder_nodup (st : Midi2Notes.MIDIToNotesConverter)
    (msgs : List Midi2Notes.RawMsg)
    (h : (st.active_notes.map Prod.fst).Nodup) :
    (((Midi2Notes.runDecoder st msgs).1).active_notes.map Prod.fst).Nodup := by
  rw [Midi2Notes.runDecoder]
  exact runDecoder_foldl_nodup msgs (st, []) h

theorem handle_note_fields (c : Notes2Midi.TimedMIDIConverter) (m t : Nat) :
    (Notes2Midi.handle_note c m t).1.channel = c.channel ∧
    (Notes2Midi.handle_note c m t).1.velocity = c.velocity ∧
    (Notes2Midi.handle_note c m t).1.note_off = c.note_off := by
  rw [Notes2Midi.handle_note]
  split_ifs <;> exact ⟨rfl, rfl, rfl⟩

theorem convert_tokens_fields (ts : List String) :
    ∀ c : Notes2Midi.TimedMIDIConverter,
      (Notes2Midi.convert_tokens c ts).1.channel = c.channel ∧
      (Notes2Midi.convert_tokens c ts).1.velocity = c.velocity ∧
      (Notes2Midi.convert_tokens c ts).1.note_off = c.note_off := by
  induction ts with
  | nil => intro c; exact ⟨rfl, rfl, rfl⟩
  | cons t ts ih =>
    intro c
    rw [Notes2Midi.convert_tokens]
    by_cases ht : t = ""
    · rw [if_pos ht]; exact ih c
    · rw [if_neg ht]
      cases hn : Notes2Midi.note_to_midi t with
      | error e => exact ih c
      | ok info =>
        cases info with
        | rest k => exact ih c
        | note m k =>
          have h1 := handle_note_fields c m k
          have h2 := ih (Notes2Midi.handle_note c m k).1
          exact ⟨h2.1.trans h1.1, h2.2.1.trans h1.2.1, h2.2.2.trans h1.2.2⟩

theorem handle_note_processed (c : Notes2Midi.TimedMIDIConverter) (m t : Nat)
    (h : c.note_off = "on" ∨ c.note_off = "off") :
    (Notes2Midi.handle_note c m t).1.processed_notes = c.processed_notes ++ [m] := by
  rw [Notes2Midi.handle_note]
  have h1 : ¬c.note_off = "realtime" := by rcases h with h | h <;> simp [h]
  have h2 : ¬c.note_off = "timed" := by rcases h with h | h <;> simp [h]
  have h3 : ¬c.note_off = "auto" := by rcases h with h | h <;> simp [h]
  rw [if_neg h1, if_neg h2, if_neg h3]

theorem notePitches_cons (t : String) (ts : List String) :
    Notes2Midi.notePitches (t :: ts) =
      (match Notes2Midi.note_to_midi t with
        | .ok (.note m _) => [m]
        | _ => []) ++ Notes2Midi.notePitches ts := by
  rw [Notes2Midi.notePitches, Notes2Midi.notePitches, List.filterMap_cons]
  cases hn : Notes2Midi.note_to_midi t with
  | error e => rfl
  | ok info => cases info with
    | rest k => rfl
    | note m k => rfl

theorem convert_tokens_processed (ts : List String) :
    ∀ c : Notes2Midi.TimedMIDIConverter, (c.note_off = "on" ∨ c.note_off = "off") →
      (Notes2Midi.convert_tokens c ts).1.processed_notes =
        c.processed_notes ++ Notes2Midi.notePitches ts := by
  induction ts with
  | nil => intro c _; simp [Notes2Midi.convert_tokens, Notes2Midi.notePitches]
  | cons t ts ih =>
    intro c hc
    rw [Notes2Midi.convert_tokens, notePitches_cons]
    by_cases ht : t = ""
    · rw [if_pos ht]
      have : Notes2Midi.note_to_midi t = .error "Invalid note format" := by
        subst ht; rfl
      rw [this, ih c hc, List.nil_append]
    · rw [if_neg ht]
      cases hn : Notes2Midi.note_to_midi t with
      | error e => rw [ih c hc, List.nil_append]
      | ok info =>
        cases info with
        | rest k => rw [ih c hc, List.nil_append]
        | note m k =>
          have hoff : (Notes2Midi.handle_note c m k).1.note_off = c.note_off :=
            (handle_note_fields c m k).2.2
          have := ih (Notes2Midi.handle_note c m k).1 (by rw [hoff]; exact hc)
          simp only [this, handle_note_processed c m k hc, List.append_assoc,
            List.singleton_append, List.cons_append, List.nil_append]

/-! Claim theorems. -/

/-- C1, counterexample: with the `on` policy, a pitch appearing in two note
tokens receives two end-of-stream note-offs, not exactly one per distinct
pitch — `processed_notes` is an append-only list, not a deduplicated set. -/
theorem finalize_on_duplicate_counterexample :
    Notes2Midi.init 1 64 "on" 120 = .ok enc_on ∧
    Notes2Midi.finalize (Notes2Midi.convert_tokens enc_on ["C4", "C4"]).1 =
      "80 3C 00 80 3C 00 " ∧
    ("80 3C 00 80 3C 00 " : String) ≠ "80 3C 00 " := by
  refine ⟨rfl, rfl, by decide⟩

/-- C1, amended: under the `on` policy, `finalize` emits exactly one note-off
per note token processed during the run (duplicates included), in processing
order, appended to the note-offs for pitches already accumulated before. -/
theorem finalize_on_emits_per_token (c : Notes2Midi.TimedMIDIConverter)
    (tokens : List String) (hc : c.note_off = "on") :
    Notes2Midi.finalize (Notes2Midi.convert_tokens c tokens).1 =
      (c.processed_notes ++ Notes2Midi.notePitches tokens).foldl
        (fun acc n => acc ++ Notes2Midi.generate_note_off c n) "" := by
  have hfields := convert_tokens_fields tokens c
  have hproc := convert_tokens_processed tokens c (Or.inl hc)
  rw [Notes2Midi.finalize, if_pos (by rw [hfields.2.2, hc]), hproc]
  have hfun : (fun acc n => acc ++
        Notes2Midi.generate_note_off (Notes2Midi.convert_tokens c tokens).1 n) =
      (fun acc n => acc ++ Notes2Midi.generate_note_off c n) := by
    funext acc n
    rw [Notes2Midi.generate_note_off, Notes2Midi.generate_note_off, hfields.1]
  rw [hfun]

/-- C1, witness: the amended statement evaluated on the duplicated line
`C4 C4` for a freshly constructed `on`-policy encoder. -/
theorem finalize_on_emits_per_token_witness :
    Notes2Midi.finalize (Notes2Midi.convert_tokens enc_on ["C4", "C4"]).1 =
      "80 3C 00 80 3C 00 " :=
  (finalize_on_emits_per_token enc_on ["C4", "C4"] rfl).trans rfl

/-- C2, counterexample: an elapsed duration of 125 ms lies inside the claimed
interval `2×tickMs ± tickMs/2 = [124.5, 207.5]`, yet the decoder emits one
dot, not two: the code truncates `elapsed/tickMs`, it does not round. -/
theorem decoder_truncates_counterexample :
    ((2 : ℚ) * Midi2Notes.TICK_DURATION_MS - Midi2Notes.TICK_DURATION_MS * (1 / 2) ≤
        125 - 0 ∧
      (125 : ℚ) - 0 ≤ 2 * Midi2Notes.TICK_DURATION_MS + Midi2Notes.TICK_DURATION_MS * (1 / 2)) ∧
    (Midi2Notes.output_note_with_duration conv0 "C4" 0 125).2 = ["C4."] ∧
    ("C4." : String) ≠ "C4" ++ String.mk (List.replicate 2 '.') := by
  refine ⟨⟨by norm_num [Midi2Notes.TICK_DURATION_MS],
           by norm_num [Midi2Notes.TICK_DURATION_MS]⟩, ?_, by decide⟩
  have h1 : Midi2Notes.note_ticks 0 125 = ((1 : Nat) : ℤ) :=
    note_ticks_eq 0 125 1 le_rfl (by norm_num)
      (by norm_num [Midi2Notes.TICK_DURATION_MS])
      (by norm_num [Midi2Notes.TICK_DURATION_MS])
  rw [Midi2Notes.output_note_with_duration, h1]
  rfl

/-- C2, amended: for every tick count t in [1,24], the decoder emits the note
name followed by exactly t dots when the elapsed duration lies in the
truncation interval `[t×tickMs, (t+1)×tickMs)`; i.e. the emitted tick count
is `clamp(trunc(elapsed/tickMs), 1, 24)`, not a rounding. -/
theorem decoder_ticks_floor_interval (st : Midi2Notes.MIDIToNotesConverter)
    (note : String) (s e : ℚ) (t : Nat) (h1 : 1 ≤ t) (h2 : t ≤ 24)
    (h3 : (t : ℚ) * Midi2Notes.TICK_DURATION_MS ≤ e - s)
    (h4 : e - s < ((t : ℚ) + 1) * Midi2Notes.TICK_DURATION_MS) :
    (Midi2Notes.output_note_with_duration st note s e).2.getLast? =
      some (note ++ String.mk (List.replicate t '.')) := by
  rw [Midi2Notes.output_note_with_duration]
  rw [List.getLast?_concat, note_ticks_eq s e t h1 h2 h3 h4]
  simp

/-- C2, witness: 166 ms lies in `[2×83, 3×83)` and yields exactly two dots. -/
theorem decoder_ticks_floor_interval_witness :
    (Midi2Notes.output_note_with_duration conv0 "C4" 0 166).2.getLast? =
      some ("C4" ++ String.mk (List.replicate 2 '.')) :=
  decoder_ticks_floor_interval conv0 "C4" 0 166 2 (by norm_num) (by norm_num)
    (by norm_num [Midi2Notes.TICK_DURATION_MS])
    (by norm_num [Midi2Notes.TICK_DURATION_MS])

/-- C3, counterexample: pitch 0 is rendered as `C-1`, whose octave `-1` the
encoder token pattern (single octave digit `[0-9]`) rejects, so the
round-trip fails for every pitch in the octave below 12. -/
theorem pitch_roundtrip_low_counterexample :
    Midi2Notes.midi_to_note 0 = "C-1" ∧
    exceptOk (Notes2Midi.note_to_midi (Midi2Notes.midi_to_note 0)) = false := by
  exact ⟨rfl, by decide⟩

/-- C3, amended: for every pitch p in [12,127] — i.e. whenever the emitted
octave is a single nonnegative digit — decoding to the sharp-preferring
name+octave token and re-encoding returns exactly p (with the default tick
count 1). Pitches 0–11 are rendered with octave `-1` and are rejected. -/
theorem pitch_roundtrip_from_octave_zero (p : Nat) (h1 : 12 ≤ p) (h2 : p ≤ 127) :
    (Notes2Midi.note_to_midi (Midi2Notes.midi_to_note p)).toOption =
      some (Notes2Midi.NoteInfo.note p 1) := by
  have aux : ∀ q : Fin 128, 12 ≤ q.val →
      (Notes2Midi.note_to_midi (Midi2Notes.midi_to_note q.val)).toOption =
        some (Notes2Midi.NoteInfo.note q.val 1) := by decide
  exact aux ⟨p, by omega⟩ h1

/-- C3, witness: middle C (pitch 60) round-trips. -/
theorem pitch_roundtrip_from_octave_zero_witness :
    (Notes2Midi.note_to_midi (Midi2Notes.midi_to_note 60)).toOption =
      some (Notes2Midi.NoteInfo.note 60 1) :=
  pitch_roundtrip_from_octave_zero 60 (by norm_num) (by norm_num)

/-- C4: converting the line `C4.. D4. -- E4...` with policy `auto`,
channel 1, velocity 64 prints exactly the bytes
`90 3C 40 80 3C 00 90 3E 40 80 3E 00 90 40 40 80 40 00`, the rest token
contributing none (the caller strips the trailing separator blank). -/
theorem auto_line_scenario :
    Notes2Midi.init 1 64 "auto" 120 = .ok enc_auto ∧
    String.mk (stripChars (Notes2Midi.convert_line enc_auto "C4.. D4. -- E4...").2.data) =
      "90 3C 40 80 3C 00 90 3E 40 80 3E 00 90 40 40 80 40 00" := by
  exact ⟨rfl, rfl⟩

/-- C5: a rest line is emitted by a note emission only when a note has been
played before and the gap between the previous note end and this note start
strictly exceeds half a tick; a gap strictly below half a tick never yields
a rest line, and no rest line precedes the first note. -/
theorem rest_emission_conditions (st : Midi2Notes.MIDIToNotesConverter)
    (note : String) (s e : ℚ) :
    (Midi2Notes.hasRestLine (Midi2Notes.output_note_with_duration st note s e).2 = true →
      st.any_notes_played = true ∧
      s - st.last_note_end_time > Midi2Notes.TICK_DURATION_MS * (1 / 2)) ∧
    (s - st.last_note_end_time < Midi2Notes.TICK_DURATION_MS * (1 / 2) →
      Midi2Notes.hasRestLine (Midi2Notes.output_note_with_duration st note s e).2 = false) ∧
    (st.any_notes_played = false →
      Midi2Notes.hasRestLine (Midi2Notes.output_note_with_duration st note s e).2 = false) := by
  simp only [hasRestLine_output]
  rw [Midi2Notes.rest_output]
  by_cases hA : st.any_notes_played = true ∧ st.last_note_end_time > 0
  · rw [if_pos hA]
    by_cases hB : s - st.last_note_end_time > Midi2Notes.TICK_DURATION_MS * (1 / 2)
    · rw [if_pos hB]
      refine ⟨fun _ => ⟨hA.1, hB⟩, fun hlt => absurd hB (not_lt.2 hlt.le), fun hf => ?_⟩
      rw [hf] at hA
      cases hA.1
    · rw [if_neg hB]
      exact ⟨fun h => by simp [Midi2Notes.hasRestLine] at h, fun _ => rfl, fun _ => rfl⟩
  · rw [if_neg hA]
    exact ⟨fun h => by simp [Midi2Notes.hasRestLine] at h, fun _ => rfl, fun _ => rfl⟩

/-- C5, witness: the first-ever note emission produces no rest line. -/
theorem rest_emission_conditions_witness :
    Midi2Notes.hasRestLine (Midi2Notes.output_note_with_duration conv0 "C4" 0 125).2 =
      false :=
  (rest_emission_conditions conv0 "C4" 0 125).2.2 rfl

/-- C6: from any constructed decoder, every reachable state keys the active
notes uniquely (at most one entry per pitch), and a note-on with positive
velocity for an already-active pitch overwrites its start timestamp in
place, adds no key, and emits no output. -/
theorem active_notes_invariant_retrigger (midi_device : String)
    (channel_filter : Int) (st0 : Midi2Notes.MIDIToNotesConverter)
    (msgs : List Midi2Notes.RawMsg)
    (hinit : Midi2Notes.init midi_device channel_filter = .ok st0) :
    (((Midi2Notes.runDecoder st0 msgs).1).active_notes.map Prod.fst).Nodup ∧
    (∀ (st : Midi2Notes.MIDIToNotesConverter) (status_byte data1 data2 : Nat) (now : ℚ),
      (status_byte &&& 0xF0) >>> 4 = 9 →
      0 < data2 →
      ¬(st.channel_filter ≠ 0 ∧
        ((status_byte &&& 0x0F : Nat) : Int) + 1 ≠ st.channel_filter) →
      MidiDict.dmem data1 st.active_notes = true →
      (Midi2Notes.process_midi_message st status_byte data1 data2 now).2 = [] ∧
      MidiDict.dlookup data1
        (Midi2Notes.process_midi_message st status_byte data1 data2 now).1.note_start_time =
        some now ∧
      (Midi2Notes.process_midi_message st status_byte data1 data2 now).1.active_notes.map
        Prod.fst = st.active_notes.map Prod.fst) := by
  constructor
  · have h0 : st0.active_notes = [] := by
      rw [Midi2Notes.init] at hinit
      by_cases hcf : ¬(0 ≤ channel_filter ∧ channel_filter ≤ 16)
      · rw [if_pos hcf] at hinit; cases hinit
      · rw [if_neg hcf] at hinit
        injection hinit with h
        rw [← h]
    apply runDecoder_nodup
    rw [h0]
    simp
  · intro st status_byte data1 data2 now h9 hd2 hflt hmem
    simp only [Midi2Notes.process_midi_message]
    rw [if_neg hflt, if_pos h9, if_pos hd2]
    exact ⟨rfl, dlookup_dinsert _ _ _, dinsert_keys_of_mem _ _ _ hmem⟩

/-- C6, witness: two note-ons for pitch 60 leave uniquely-keyed active
notes, and a retrigger on an active pitch 60 emits nothing, re-stamps its
start time, and preserves the key set. -/
theorem active_notes_invariant_retrigger_witness :
    (((Midi2Notes.runDecoder conv0 retriggerMsgs).1).active_notes.map Prod.fst).Nodup ∧
    (Midi2Notes.process_midi_message conv_active 0x90 60 64 99).2 = [] ∧
    MidiDict.dlookup 60
      (Midi2Notes.process_midi_message conv_active 0x90 60 64 99).1.note_start_time =
      some 99 ∧
    (Midi2Notes.process_midi_message conv_active 0x90 60 64 99).1.active_notes.map
      Prod.fst = conv_active.active_notes.map Prod.fst := by
  have h := active_notes_invariant_retrigger "-" 0 conv0 retriggerMsgs rfl
  have h2 := h.2 conv_active 0x90 60 64 99 rfl (by norm_num)
    (fun hcon => hcon.1 rfl) rfl
  exact ⟨h.1, h2.1, h2.2.1, h2.2.2⟩

/-- C7: a message whose channel differs from a nonzero channel filter leaves
the decoder state entirely unchanged and produces no output. -/
theorem channel_filter_no_effect (st : Midi2Notes.MIDIToNotesConverter)
    (status_byte data1 data2 : Nat) (now : ℚ)
    (h1 : st.channel_filter ≠ 0)
    (h2 : ((status_byte &&& 0x0F : Nat) : Int) + 1 ≠ st.channel_filter) :
    Midi2Notes.process_midi_message st status_byte data1 data2 now = (st, []) := by
  simp only [Midi2Notes.process_midi_message]
  rw [if_pos ⟨h1, h2⟩]

/-- C7, witness: a channel-2 note-on against filter 1 is a no-op. -/
theorem channel_filter_no_effect_witness :
    Midi2Notes.process_midi_message conv_f1 0x91 60 64 7 = (conv_f1, []) :=
  channel_filter_no_effect conv_f1 0x91 60 64 7 (by decide) (by decide)

/-- C8: encoder construction succeeds exactly when channel is in [1,16],
velocity in [0,127], the policy one of off/on/auto/timed/realtime, and bpm
in [30,300]; decoder construction succeeds exactly when the channel filter
is in [0,16]. Both validations run in the constructor, before any input. -/
theorem construction_validation (channel velocity bpm channel_filter : Int)
    (note_off midi_device : String) :
    (exceptOk (Notes2Midi.init channel velocity note_off bpm) = true ↔
      (1 ≤ channel ∧ channel ≤ 16) ∧ (0 ≤ velocity ∧ velocity ≤ 127) ∧
      note_off ∈ ["on", "off", "auto", "timed", "realtime"] ∧
      (30 ≤ bpm ∧ bpm ≤ 300)) ∧
    (exceptOk (Midi2Notes.init midi_device channel_filter) = true ↔
      0 ≤ channel_filter ∧ channel_filter ≤ 16) := by
  constructor
  · rw [Notes2Midi.init]
    split_ifs with hc hv hp hb <;> simp_all [exceptOk]
  · rw [Midi2Notes.init]
    split_ifs with hf <;> simp_all [exceptOk]

/-- C8, witness: the default-style configuration constructs successfully on
both sides. -/
theorem construction_validation_witness :
    exceptOk (Notes2Midi.init 1 64 "auto" 120) = true ∧
    exceptOk (Midi2Notes.init "-" 0) = true :=
  ⟨(construction_validation 1 64 120 0 "auto" "-").1.mpr
    ⟨⟨by norm_num, by norm_num⟩, ⟨by norm_num, by norm_num⟩, by simp,
     by norm_num, by norm_num⟩,
   (construction_validation 1 64 120 0 "auto" "-").2.mpr ⟨by norm_num, by norm_num⟩⟩

/-- C9: a token that fails to parse (bad shape, bad name, or out-of-range
pitch) is skipped without affecting anything else: converting a token list
equals converting the list with the invalid tokens removed, both in emitted
bytes and in final converter state. -/
theorem invalid_tokens_skipped (c : Notes2Midi.TimedMIDIConverter)
    (tokens : List String) :
    Notes2Midi.convert_tokens c tokens =
      Notes2Midi.convert_tokens c (tokens.filter Notes2Midi.token_ok) := by
  induction tokens generalizing c with
  | nil => rfl
  | cons t ts ih =>
    by_cases ht : t = ""
    · subst ht
      have htk : Notes2Midi.token_ok "" = false := rfl
      have hfil : ("" :: ts).filter Notes2Midi.token_ok =
          ts.filter Notes2Midi.token_ok := by
        rw [List.filter_cons, htk]
        simp
      have hL : Notes2Midi.convert_tokens c ("" :: ts) =
          Notes2Midi.convert_tokens c ts := by
        rw [Notes2Midi.convert_tokens, if_pos rfl]
      rw [hL, hfil]
      exact ih c
    · cases hn : Notes2Midi.note_to_midi t with
      | error e =>
        have htk : Notes2Midi.token_ok t = false := by
          rw [Notes2Midi.token_ok, hn]
          rfl
        have hfil : (t :: ts).filter Notes2Midi.token_ok =
            ts.filter Notes2Midi.token_ok := by
          rw [List.filter_cons, htk]
          simp
        have hL : Notes2Midi.convert_tokens c (t :: ts) =
            Notes2Midi.convert_tokens c ts := by
          rw [Notes2Midi.convert_tokens, if_neg ht, hn]
        rw [hL, hfil]
        exact ih c
      | ok info =>
        have htk : Notes2Midi.token_ok t = true := by
          rw [Notes2Midi.token_ok, hn]
          rfl
        have hfil : (t :: ts).filter Notes2Midi.token_ok =
            t :: ts.filter Notes2Midi.token_ok := by
          rw [List.filter_cons, htk]
          simp
        cases info with
        | rest k =>
          have hL : Notes2Midi.convert_tokens c (t :: ts) =
              Notes2Midi.convert_tokens c ts := by
            rw [Notes2Midi.convert_tokens, if_neg ht, hn]
          have hR : Notes2Midi.convert_tokens c ((t :: ts).filter Notes2Midi.token_ok) =
              Notes2Midi.convert_tokens c (ts.filter Notes2Midi.token_ok) := by
            rw [hfil, Notes2Midi.convert_tokens, if_neg ht, hn]
          rw [hL, hR]
          exact ih c
        | note m k =>
          have hL : Notes2Midi.convert_tokens c (t :: ts) =
              ((Notes2Midi.convert_tokens (Notes2Midi.handle_note c m k).1 ts).1,
               (Notes2Midi.handle_note c m k).2 ++
                 (Notes2Midi.convert_tokens (Notes2Midi.handle_note c m k).1 ts).2) := by
            rw [Notes2Midi.convert_tokens, if_neg ht, hn]
          have hR : Notes2Midi.convert_tokens c ((t :: ts).filter Notes2Midi.token_ok) =
              ((Notes2Midi.convert_tokens (Notes2Midi.handle_note c m k).1
                  (ts.filter Notes2Midi.token_ok)).1,
               (Notes2Midi.handle_note c m k).2 ++
                 (Notes2Midi.convert_tokens (Notes2Midi.handle_note c m k).1
                   (ts.filter Notes2Midi.token_ok)).2) := by
            rw [hfil, Notes2Midi.convert_tokens, if_neg ht, hn]
          rw [hL, hR, ih (Notes2Midi.handle_note c m k).1]

/-- C10: for every policy other than `on`, `finalize` returns the empty
output; and the `off` policy still accumulates processed pitches exactly
like `on` does. -/
theorem finalize_silent_off_accumulates (c : Notes2Midi.TimedMIDIConverter)
    (tokens : List String) :
    (c.note_off ≠ "on" → Notes2Midi.finalize c = "") ∧
    (c.note_off = "off" →
      (Notes2Midi.convert_tokens c tokens).1.processed_notes =
        c.processed_notes ++ Notes2Midi.notePitches tokens) := by
  constructor
  · intro h
    rw [Notes2Midi.finalize, if_neg h]
  · intro h
    exact convert_tokens_processed tokens c (Or.inr h)

/-- C10, witness: an `auto` encoder finalizes to nothing, and an `off`
encoder accumulates the pitch of `C4`. -/
theorem finalize_silent_off_accumulates_witness :
    Notes2Midi.finalize enc_auto = "" ∧
    (Notes2Midi.convert_tokens enc_off ["C4"]).1.processed_notes =
      enc_off.processed_notes ++ Notes2Midi.notePitches ["C4"] :=
  ⟨(finalize_silent_off_accumulates enc_auto []).1 (by decide),
   (finalize_silent_off_accumulates enc_off ["C4"]).2 rfl⟩
